import Mathlib

/-!
Verification development for the workmate chat client's event-stream
reconciliation engine. The definitions below are a shallow embedding of
the reconciliation/store logic of the source hook (the `handleEvent`
callback, session management and turn controller of the OpenCode provider)
and of the zustand store (`appStore.ts`). JavaScript-specific behaviour
that the source relies on is modelled explicitly: string truthiness
(`undefined`/`null`/`""` are falsy), the `a || b` fallback operator, and
`Array.prototype.split` for single-character separators. The JSON library
(`JSON.parse` / `JSON.stringify`) is treated as an opaque environment
passed in as a record of functions, since only its determinism matters
to the properties proved here.
-/

namespace Workmate

/-- Opaque model of a JavaScript runtime value as stored in tool state:
either a string or a (truthy) non-string object identified by an opaque
representation. -/
inductive JsVal where
  | str (s : String)
  | obj (o : String)
deriving DecidableEq, Repr

/-- JS truthiness for a `JsVal`: the empty string is falsy, objects are truthy. -/
def jsTruthyVal : JsVal → Bool
  | .str s => !(s == "")
  | .obj _ => true

/-- JS truthiness of an optional string (`undefined`/`null` and `""` are falsy). -/
def strTruthy : Option String → Bool
  | none => false
  | some s => !(s == "")

/-- JS `a || b` on optional strings: the first operand if truthy, else the second. -/
def jsOrStr (a : Option String) (b : Option String) : Option String :=
  if strTruthy a then a else b

/-- JS `a || d` where `d` is a plain (defaulting) string. -/
def jsOrStrD (a : Option String) (d : String) : String :=
  match a with
  | some s => if s == "" then d else s
  | none => d

/-- JS `a || d` on numeric timestamps (`0` is falsy, as in `time?.created || Date.now()`). -/
def jsOrNat (a : Option Nat) (d : Nat) : Nat :=
  match a with
  | some n => if n == 0 then d else n
  | none => d

/-- Message part, from `MessagePart` in `types/index.ts`. -/
structure MsgPart where
  type : String
  content : String
  id : Option String := none
  toolName : Option String := none
  toolInput : Option JsVal := none
  toolOutput : Option JsVal := none
  toolError : Option String := none
  status : Option String := none
deriving DecidableEq, Repr

/-- Message, from `Message` in `types/index.ts`. -/
structure Message where
  id : String
  role : String
  content : String
  parts : List MsgPart := []
  timestamp : Nat := 0
  status : Option String := none
deriving DecidableEq, Repr

/-- Placeholder message used for out-of-range list reads in statements. -/
def dummyMessage : Message :=
  { id := "", role := "", content := "" }

/-- Session, from `Session` in `types/index.ts`. -/
structure Session where
  id : String
  title : String
  createdAt : Nat
  updatedAt : Nat
  messageCount : Nat
deriving DecidableEq, Repr

/-- Permission request, from `PermissionRequest` in `types/index.ts`. -/
structure PermissionRequest where
  id : String
  type : String
  description : String
  path : Option String := none
  command : Option String := none
  diff : Option String := none
deriving DecidableEq, Repr

/-- Payload of a `message.created` / `message.updated` event (`props.info`). -/
structure MsgInfo where
  id : String
  role : String
  timeCreated : Option Nat := none
deriving DecidableEq, Repr

/-- Tool execution state carried on a tool part event (`part.state`). -/
structure ToolState where
  status : Option String := none
  input : Option JsVal := none
  output : Option JsVal := none
  error : Option String := none
deriving DecidableEq, Repr

/-- Payload of a `message.part.updated` event (`props.part`). -/
structure PartEv where
  id : Option String := none
  messageID : Option String := none
  type : Option String := none
  text : Option String := none
  tool : Option String := none
  state : Option ToolState := none
deriving DecidableEq, Repr

/-- Payload of a `session.created` / `session.updated` event (`props.info`). -/
structure SessionInfo where
  id : String
  title : Option String := none
  timeCreated : Option Nat := none
  timeUpdated : Option Nat := none
deriving DecidableEq, Repr

/-- Decoded inbound event, one constructor per `type` tag recognized by
`handleEvent`; `unknownEvent` stands for any unrecognized tag. -/
inductive Event where
  | permissionRequest (req : PermissionRequest)
  | messageCreated (info : MsgInfo)
  | messageUpdated (info : MsgInfo)
  | messagePartUpdated (part : Option PartEv)
  | sessionStatus (statusType : Option String)
  | sessionIdle
  | runCompleted
  | runFailed
  | sessionError (message : Option String) (error : Option String)
  | sessionCreated (info : Option SessionInfo)
  | sessionUpdated (info : Option SessionInfo)
  | serverHeartbeat
  | serverConnected
  | unknownEvent
deriving DecidableEq, Repr

/-- Opaque JSON library: `parse` models `JSON.parse` on a string (`none` on
throw), `stringifyPretty` models `JSON.stringify(v, null, 2)`. -/
structure JsonEnv where
  parse : String → Option JsVal
  stringifyPretty : JsVal → String

/-- Combined state of the zustand store and the provider's refs:
`messages`/`sessions`/`isLoading`/`pendingPermission`/`error` from the store
and component state, `lastMessageId` = `lastMessageIdRef`,
`userMessageIds` = `userMessageIdsRef` (insertion-ordered set),
`pendingSessionId` = `pendingSessionIdRef`,
`currentSessionId` = the `currentSessionId` component state. -/
structure EngineState where
  messages : List Message := []
  sessions : List Session := []
  lastMessageId : Option String := none
  userMessageIds : List String := []
  pendingSessionId : Option String := none
  currentSessionId : Option String := none
  isLoading : Bool := false
  error : Option String := none
  pendingPermission : Option PermissionRequest := none
deriving DecidableEq, Repr

/-- Store `addMessage`: appends unconditionally
(`messages: [...state.messages, message]`). -/
def addMessage (m : Message) (s : EngineState) : EngineState :=
  { s with messages := s.messages ++ [m] }

/-- Partial update passed to the store's `updateMessage` (only the fields
the source ever passes: `content`, `status`, `parts`). -/
structure MsgUpdate where
  content : Option String := none
  status : Option String := none
  parts : Option (List MsgPart) := none
deriving DecidableEq, Repr

/-- JS object spread `{...m, ...updates}` for the update shapes above. -/
def applyUpdate (m : Message) (u : MsgUpdate) : Message :=
  { m with
      content := u.content.getD m.content
      status := match u.status with
        | some st => some st
        | none => m.status
      parts := u.parts.getD m.parts }

/-- Store `updateMessage`: maps over the list, merging the update into every
message whose `id` matches (no-op when the id is absent). -/
def updateMessage (id : String) (u : MsgUpdate) (s : EngineState) : EngineState :=
  { s with messages := s.messages.map fun m => if m.id == id then applyUpdate m u else m }

/-- Store `setMessages`. -/
def setMessages (ms : List Message) (s : EngineState) : EngineState :=
  { s with messages := ms }

/-- Store `setLoading`. -/
def setLoading (b : Bool) (s : EngineState) : EngineState :=
  { s with isLoading := b }

/-- The ref'd id set's `Set.add`, modelled as an insertion-ordered list. -/
def insertId (x : String) (l : List String) : List String :=
  if x ∈ l then l else l ++ [x]

/-- The find-index/replace-else-append pattern used for every part upsert in
the part-updated handler (`findIndex` then copy-and-assign, else push). -/
def upsertPartList (key : MsgPart → Bool) (newPart : MsgPart) (ps : List MsgPart) : List MsgPart :=
  match ps.findIdx? key with
  | some i => ps.set i newPart
  | none => ps ++ [newPart]

/-- Text part built from a part event (`{ type: "text", content: part.text || "", id: part.id }`). -/
def mkTextPart (p : PartEv) : MsgPart :=
  { type := "text", content := p.text.getD "", id := p.id }

/-- Reasoning part built from a part event. -/
def mkReasoningPart (p : PartEv) : MsgPart :=
  { type := "reasoning", content := p.text.getD "", id := p.id }

/-- Output handling of a completed tool (`JSON.parse` a string output for
pretty display, else stringify the object, else empty); returns the
rendered content and the stored `toolOutput`. -/
def toolCompletedOutput (env : JsonEnv) : Option JsVal → String × Option JsVal
  | some (.str sOut) =>
      match env.parse sOut with
      | some v => (env.stringifyPretty v, some v)
      | none => (sOut, some (.str sOut))
  | some (.obj o) => (env.stringifyPretty (.obj o), some (.obj o))
  | none => ("", none)

/-- Tool part built from a part event, classified by `part.state.status`
(`completed` / `error` / anything else). -/
def mkToolPart (env : JsonEnv) (p : PartEv) : MsgPart :=
  let statusOpt := p.state.bind (fun ts => ts.status)
  let inputOpt := p.state.bind (fun ts => ts.input)
  if statusOpt == some "completed" then
    let r := toolCompletedOutput env (p.state.bind (fun ts => ts.output))
    { type := "tool_result", id := p.id, toolName := p.tool, content := r.1,
      toolInput := inputOpt, toolOutput := r.2, status := some "completed" }
  else if statusOpt == some "error" then
    { type := "tool_result", id := p.id, toolName := p.tool, content := "",
      toolInput := inputOpt,
      toolError := some (jsOrStrD (p.state.bind (fun ts => ts.error)) "Tool execution failed"),
      status := some "error" }
  else
    let inputVal := match inputOpt with
      | some v => if jsTruthyVal v then v else JsVal.obj "\x7b\x7d"
      | none => JsVal.obj "\x7b\x7d"
    { type := "tool_use", id := p.id, toolName := p.tool,
      content := env.stringifyPretty inputVal,
      toolInput := inputOpt, status := statusOpt }

/-- Upsert key for text parts (`p.type === "text" && p.id === part.id`). -/
def isTextKey (pid : Option String) (q : MsgPart) : Bool :=
  q.type == "text" && q.id == pid

/-- Upsert key for reasoning parts. -/
def isReasoningKey (pid : Option String) (q : MsgPart) : Bool :=
  q.type == "reasoning" && q.id == pid

/-- Upsert key for tool parts
(`(p.type === "tool_use" || p.type === "tool_result") && p.id === part.id`). -/
def isToolKey (pid : Option String) (q : MsgPart) : Bool :=
  (q.type == "tool_use" || q.type == "tool_result") && q.id == pid

/-- Flattened text content: newline join of all text parts in sequence order. -/
def joinTextContent (ps : List MsgPart) : String :=
  String.intercalate "\n" ((ps.filter fun q => q.type == "text").map fun q => q.content)

/-- Stub assistant message created when a part event references an unknown
message id (`addMessage` with empty parts and streaming status). -/
def stubFromPart (now : Nat) (mid : String) : Message :=
  { id := mid, role := "assistant", content := "", timestamp := now,
    status := some "streaming", parts := [] }

/-- Lines 166-183 of the part-updated case: if the event names a (truthy)
message id and no assistant message is active, adopt the id as active,
creating a stub assistant message when the id is unknown. -/
def ensureAssistantTarget (now : Nat) (messageId : Option String) (s : EngineState) : EngineState :=
  if strTruthy messageId && !(strTruthy s.lastMessageId) then
    let mid := messageId.getD ""
    match s.messages.find? (fun m => m.id == mid) with
    | some _ => { s with lastMessageId := some mid }
    | none => addMessage (stubFromPart now mid) { s with lastMessageId := some mid }
  else s

/-- The `currentMessage?.parts || []` lookup of the part-updated case. -/
def currentPartsOf (targetId : String) (s : EngineState) : List MsgPart :=
  match s.messages.find? (fun m => m.id == targetId) with
  | some m => m.parts
  | none => []

/-- Lines 188-320 of the part-updated case: look up the target message's
current parts and dispatch on the part type, upserting and writing back
with status `streaming`. -/
def applyPartContent (env : JsonEnv) (p : PartEv) (targetId : String) (s : EngineState) : EngineState :=
  let currentParts := currentPartsOf targetId s
  if p.type == some "text" then
    let newParts := upsertPartList (isTextKey p.id) (mkTextPart p) currentParts
    updateMessage targetId
      { content := some (joinTextContent newParts), status := some "streaming", parts := some newParts } s
  else if p.type == some "reasoning" then
    let newParts := upsertPartList (isReasoningKey p.id) (mkReasoningPart p) currentParts
    updateMessage targetId { status := some "streaming", parts := some newParts } s
  else if p.type == some "tool" then
    let newParts := upsertPartList (isToolKey p.id) (mkToolPart env p) currentParts
    updateMessage targetId { status := some "streaming", parts := some newParts } s
  else s

/-- The `message.part.updated` case of `handleEvent`: skip parts of known
user messages, ensure an active assistant target, resolve the effective
target id (`lastMessageIdRef.current || messageId`), and apply the part. -/
def handlePartUpdated (env : JsonEnv) (now : Nat) (pev : Option PartEv) (s : EngineState) : EngineState :=
  let messageId : Option String := pev.bind (fun p => p.messageID)
  if strTruthy messageId && s.userMessageIds.contains (messageId.getD "") then s
  else
    let s1 := ensureAssistantTarget now messageId s
    let targetId? := jsOrStr s1.lastMessageId messageId
    if !(strTruthy targetId?) then s1
    else
      match pev with
      | none => s1
      | some p => applyPartContent env p (targetId?.getD "") s1

/-- The `message.created` / `message.updated` case of `handleEvent`: track
user message ids; create a streaming assistant message when unknown, else
just (re)adopt it as active. -/
def handleMessageInfo (now : Nat) (info : MsgInfo) (s : EngineState) : EngineState :=
  let uids := if info.role == "user" then insertId info.id s.userMessageIds
    else s.userMessageIds
  let s1 := { s with userMessageIds := uids }
  if info.role == "assistant" then
    match s1.messages.find? (fun m => m.id == info.id) with
    | none =>
        addMessage
          { id := info.id, role := "assistant", content := "",
            timestamp := jsOrNat info.timeCreated now,
            status := some "streaming", parts := [] }
          { s1 with lastMessageId := some info.id }
    | some _ => { s1 with lastMessageId := some info.id }
  else s1

/-- Terminal cleanup shared by `session.status(idle)`, `session.idle`,
`run.completed`, `run.failed` and `session.error`: mark the active
assistant message complete, clear the active and pending trackers, clear
loading. -/
def terminalCleanup (s : EngineState) : EngineState :=
  let s1 :=
    if strTruthy s.lastMessageId then
      { updateMessage (s.lastMessageId.getD "") { status := some "complete" } s with
          lastMessageId := none }
    else s
  { s1 with pendingSessionId := none, isLoading := false }

/-- The `session.status` case of `handleEvent`. -/
def handleSessionStatus (st : Option String) (s : EngineState) : EngineState :=
  if st == some "busy" then { s with isLoading := true }
  else if st == some "idle" then terminalCleanup s
  else s

/-- The `session.error` case of `handleEvent`: surface
`props.message || props.error || "Session error occurred"` then terminal cleanup. -/
def handleSessionError (msg err : Option String) (s : EngineState) : EngineState :=
  terminalCleanup { s with error := some (jsOrStrD msg (jsOrStrD err "Session error occurred")) }

/-- The `session.created` case of `handleEvent`: prepend the new session
unless already present. -/
def handleSessionCreated (now : Nat) (info? : Option SessionInfo) (s : EngineState) : EngineState :=
  match info? with
  | none => s
  | some info =>
      let newSession : Session :=
        { id := info.id, title := jsOrStrD info.title "New Chat",
          createdAt := jsOrNat info.timeCreated now,
          updatedAt := jsOrNat info.timeUpdated now, messageCount := 0 }
      if (s.sessions.find? (fun ss => ss.id == info.id)).isSome then s
      else { s with sessions := newSession :: s.sessions }

/-- The `session.updated` case of `handleEvent`: update by id, prepending a
fresh entry when the id is unknown. -/
def handleSessionUpdated (now : Nat) (info? : Option SessionInfo) (s : EngineState) : EngineState :=
  match info? with
  | none => s
  | some info =>
      let updated := s.sessions.map fun ss =>
        if ss.id == info.id then
          { ss with title := jsOrStrD info.title ss.title,
                    updatedAt := jsOrNat info.timeUpdated now }
        else ss
      let final :=
        if (s.sessions.find? (fun ss => ss.id == info.id)).isSome then updated
        else ({ id := info.id, title := jsOrStrD info.title "New Chat",
                createdAt := jsOrNat info.timeCreated now,
                updatedAt := jsOrNat info.timeUpdated now, messageCount := 0 } : Session) :: updated
      { s with sessions := final }

/-- The reconciliation engine: `handleEvent` of the provider, one event at a
time. `now` models `Date.now()` at handling time; `env` the JSON library. -/
def handleEvent (env : JsonEnv) (now : Nat) (e : Event) (s : EngineState) : EngineState :=
  match e with
  | .permissionRequest req => { s with pendingPermission := some req }
  | .messageCreated info => handleMessageInfo now info s
  | .messageUpdated info => handleMessageInfo now info s
  | .messagePartUpdated p => handlePartUpdated env now p s
  | .sessionStatus st => handleSessionStatus st s
  | .sessionIdle => terminalCleanup s
  | .runCompleted => terminalCleanup s
  | .runFailed => terminalCleanup s
  | .sessionError m er => handleSessionError m er s
  | .sessionCreated i => handleSessionCreated now i s
  | .sessionUpdated i => handleSessionUpdated now i s
  | .serverHeartbeat => s
  | .serverConnected => s
  | .unknownEvent => s

/-- User ids collected from a loaded history
(`messages.filter(role === "user").forEach(add)`). -/
def historyUserIds (history : List Message) (acc : List String) : List String :=
  (history.filter fun m => m.role == "user").foldl (fun a m => insertId m.id a) acc

/-- Model of `loadSessionMessages`: a no-op while the session is the pending one,
else a full replacement of the store's messages with the fetched history
(the fetch-and-map of the raw API response is the external boundary and
enters as the `history` parameter). -/
def loadSessionMessages (history : List Message) (sid : String) (s : EngineState) : EngineState :=
  if s.pendingSessionId == some sid then s
  else
    { s with isLoading := false, messages := history,
             userMessageIds := historyUserIds history s.userMessageIds }

/-- Model of `setCurrentSessionId` plus the effect keyed on `currentSessionId`: the
effect (which calls `loadSessionMessages`) re-runs only when the id
actually changes. -/
def setCurrentSessionEffect (history : List Message) (sid : String) (s : EngineState) : EngineState :=
  if s.currentSessionId == some sid then s
  else loadSessionMessages history sid { s with currentSessionId := some sid }

/-- Model of `switchSession`: clear the pending-session, user-id and active-message
trackers, then select the session (triggering the history-load effect when
the id changed). -/
def switchSession (history : List Message) (sid : String) (s : EngineState) : EngineState :=
  setCurrentSessionEffect history sid
    { s with pendingSessionId := none, userMessageIds := [], lastMessageId := none }

/-- Model of `createSession` (after the server returned `newId`): mark the session
pending, clear the user-id tracker, select it (the triggered load is then
suppressed by the pending guard). -/
def createSession (history : List Message) (newId : String) (s : EngineState) : EngineState :=
  setCurrentSessionEffect history newId
    { s with pendingSessionId := some newId, userMessageIds := [] }

/-- Optimistic user message inserted by `sendMessage`
(id `user-${Date.now()}`, one text part, status complete). -/
def mkUserMessage (now : Nat) (text : String) : Message :=
  { id := "user-" ++ toString now, role := "user", content := text,
    parts := [{ type := "text", id := some ("user-" ++ toString now ++ "-text"), content := text }],
    timestamp := now, status := some "complete" }

/-- Model of `sendMessage`: ensure a session, set loading, append the optimistic user
message, dispatch; on dispatch failure surface the error and clear loading.
The dispatch outcome is the external transport boundary (`dispatch`). -/
def sendMessage (now : Nat) (newSessionId : String) (dispatch : Except String Unit)
    (text : String) (s : EngineState) : EngineState :=
  let s1 := match s.currentSessionId with
    | some _ => s
    | none => createSession [] newSessionId s
  let s2 := setLoading true s1
  let s3 := addMessage (mkUserMessage now text) s2
  match dispatch with
  | .ok _ => s3
  | .error msg => { s3 with error := some msg, isLoading := false }

/-- Model of `regenerateLastMessage`: find the most recent user message
(`[...messages].reverse().findIndex`), throw when there is none, else
truncate the store to end at it inclusive, set loading, and return the
re-dispatched prompt text. -/
def regenerateLastMessage (s : EngineState) : Except String (EngineState × String) :=
  match s.messages.reverse.findIdx? (fun m => m.role == "user") with
  | none => Except.error "No user message to regenerate from"
  | some ridx =>
      let actualIndex := s.messages.length - 1 - ridx
      let lastUserMessage := s.messages.getD actualIndex dummyMessage
      let messagesToKeep := s.messages.take (actualIndex + 1)
      Except.ok (setLoading true (setMessages messagesToKeep s), lastUserMessage.content)

/-- JS `String.prototype.split` with a single-character separator, on the
character-list representation. -/
def jsSplitChar (sep : Char) : List Char → List (List Char)
  | [] => [[]]
  | c :: cs =>
      match jsSplitChar sep cs with
      | [] => [[]]
      | h :: t => if c == sep then [] :: h :: t else (c :: h) :: t

/-- JS `String.prototype.split` with a single-character separator. -/
def jsSplit (sep : Char) (s : String) : List String :=
  (jsSplitChar sep s.toList).map fun l => String.mk l

/-- JS `String.prototype.includes` for a single-character needle. -/
def jsIncludes (sep : Char) (s : String) : Bool :=
  s.toList.contains sep

/-- The model-string parsing done before every dispatch:
`selectedModel.includes("/") ? selectedModel.split("/") : [selectedProvider, selectedModel]`
destructured as `[providerID, modelID]`. -/
def parseModel (selectedProvider selectedModel : String) : String × String :=
  if jsIncludes '/' selectedModel then
    let segs := jsSplit '/' selectedModel
    (segs.getD 0 "", segs.getD 1 "")
  else (selectedProvider, selectedModel)

/-- Recognizer for `message.part.updated` events, used in statements. -/
def isPartUpdatedEvent : Event → Bool
  | .messagePartUpdated _ => true
  | _ => false

/-- Recognizer for terminal events (the ones whose handling marks the
active assistant message complete): `session.status` with inner `idle`,
`session.idle`, `run.completed`, `run.failed`, `session.error`. -/
def isTerminalEvent : Event → Bool
  | .sessionStatus st => st == some "idle"
  | .sessionIdle => true
  | .runCompleted => true
  | .runFailed => true
  | .sessionError _ _ => true
  | _ => false

/-- Trivial JSON environment used when instantiating theorems at concrete
inputs (no string parses; objects stringify to the empty string). -/
def trivialJson : JsonEnv :=
  { parse := fun _ => none, stringifyPretty := fun _ => "" }

/-! ### Concrete states and events used to instantiate the theorems -/

/-- An assistant message that has already completed, with no parts. -/
def completedAssistant : Message :=
  { id := "m1", role := "assistant", content := "", parts := [], timestamp := 0,
    status := some "complete" }

/-- Store containing only the completed assistant message, no active target. -/
def completedState : EngineState := { messages := [completedAssistant] }

/-- A text part for `p1` of message `m1` with content `hi`. -/
def hiPart : PartEv :=
  { id := some "p1", messageID := some "m1",
    type := some "text", text := some "hi" }

/-- A text part event for part `p1` of message `m1` with content `hi`. -/
def hiPartEvent : Event :=
  Event.messagePartUpdated (some hiPart)

/-- An assistant message currently streaming, with no parts yet. -/
def streamingAssistant : Message :=
  { id := "m1", role := "assistant", content := "", parts := [],
    timestamp := 0, status := some "streaming" }

/-- State for the user-part-suppression edge case: the empty string tracked
as a user message id while an assistant message is active. -/
def emptyIdState : EngineState :=
  { messages := [streamingAssistant],
    lastMessageId := some "m1", userMessageIds := [""] }

/-- A text part whose owning message id is the empty string. -/
def emptyIdPart : PartEv :=
  { id := some "p1", messageID := some "",
    type := some "text", text := some "hi" }

/-- A text part event whose owning message id is the empty string. -/
def emptyIdPartEvent : Event :=
  Event.messagePartUpdated (some emptyIdPart)

/-- State with session `sA` pending while session `sB` is selected. -/
def pendingElsewhereState : EngineState :=
  { messages := [{ id := "u1", role := "user", content := "x" }],
    pendingSessionId := some "sA", currentSessionId := some "sB" }

/-- The user message `hi`. -/
def hiUserMessage : Message := { id := "u1", role := "user", content := "hi" }

/-- The completed assistant reply `hello`. -/
def helloAssistantMessage : Message :=
  { id := "a1", role := "assistant", content := "hello", status := some "complete" }

/-- Store of a user message followed by a completed assistant reply. -/
def hiHelloState : EngineState :=
  { messages := [hiUserMessage, helloAssistantMessage] }

/-- A second message reusing the id `m1`, to exercise duplicate appends. -/
def dupUserMessage : Message := { id := "m1", role := "user", content := "b" }

/-- The completely empty initial state. -/
def initialState : EngineState := {}

/-- Upsert key instance for a text part with id `p1`. -/
def p1TextKey : MsgPart → Bool := isTextKey (some "p1")

/-- First text part for key `p1`. -/
def p1PartA : MsgPart := { type := "text", content := "a", id := some "p1" }

/-- Second text part for key `p1`. -/
def p1PartB : MsgPart := { type := "text", content := "b", id := some "p1" }

/-- A text part event for an unknown message id `mX`. -/
def unknownIdPart : PartEv :=
  { id := some "p1", messageID := some "mX", type := some "text", text := some "hi" }

/-- State tracking `u9` as a user message id. -/
def userTrackedState : EngineState := { userMessageIds := ["u9"] }

/-- A text part owned by the tracked user message `u9`. -/
def u9Part : PartEv :=
  { id := some "p1", messageID := some "u9", type := some "text", text := some "x" }

/-! ### Generic helper lemmas about the store operations -/

theorem applyUpdate_id (m : Message) (u : MsgUpdate) : (applyUpdate m u).id = m.id := rfl

theorem applyUpdate_role (m : Message) (u : MsgUpdate) : (applyUpdate m u).role = m.role := rfl

theorem applyUpdate_idem (m : Message) (u : MsgUpdate) :
    applyUpdate (applyUpdate m u) u = applyUpdate m u := by
  cases u with
  | mk c st ps => cases c <;> cases st <;> cases ps <;> simp [applyUpdate]

theorem updateMessage_idem (t : String) (u : MsgUpdate) (s : EngineState) :
    updateMessage t u (updateMessage t u s) = updateMessage t u s := by
  simp only [updateMessage, List.map_map]
  congr 1
  apply List.map_congr_left
  intro m _
  by_cases h : m.id == t
  · simp [Function.comp, h, applyUpdate_id, applyUpdate_idem]
  · simp [Function.comp, h]

theorem find?_map_update (t : String) (u : MsgUpdate) (ms : List Message) :
    (ms.map fun m => if m.id == t then applyUpdate m u else m).find? (fun m => m.id == t)
      = (ms.find? (fun m => m.id == t)).map fun m => applyUpdate m u := by
  induction ms with
  | nil => rfl
  | cons a as ih =>
      by_cases h : a.id == t
      · simp only [List.map_cons, if_pos h]
        rw [@List.find?_cons_of_pos _ (fun m => m.id == t) (applyUpdate a u) _
              (by simpa [applyUpdate_id] using h),
            @List.find?_cons_of_pos _ (fun m => m.id == t) a as h]
        rfl
      · simp only [List.map_cons, if_neg h]
        rw [@List.find?_cons_of_neg _ (fun m => m.id == t) a _ h,
            @List.find?_cons_of_neg _ (fun m => m.id == t) a as h, ih]

theorem findIdx?_set_self {α : Type _} (key : α → Bool) (ps : List α) (i : Nat) (n : α)
    (h : ps.findIdx? key = some i) (hn : key n = true) :
    (ps.set i n).findIdx? key = some i := by
  rw [List.findIdx?_eq_some_iff_getElem] at h
  obtain ⟨hi, hki, hlt⟩ := h
  rw [List.findIdx?_eq_some_iff_getElem]
  refine ⟨by simpa using hi, ?_, ?_⟩
  · rw [List.getElem_set]
    simp [hn]
  · intro j hj
    have hjlen : j < (ps.set i n).length := by
      simp only [List.length_set]
      omega
    rw [List.getElem_set]
    have hne : ¬(i = j) := by omega
    simp only [hne, if_false]
    exact hlt j hj

theorem findIdx?_append_of_none {α : Type _} (key : α → Bool) (ps : List α) (n : α)
    (h : ps.findIdx? key = none) (hn : key n = true) :
    (ps ++ [n]).findIdx? key = some ps.length := by
  rw [List.findIdx?_eq_none_iff] at h
  rw [List.findIdx?_eq_some_iff_getElem]
  refine ⟨by simp, ?_, ?_⟩
  · have hb : ps.length < (ps ++ [n]).length := by simp
    have hc : (ps ++ [n]).get ⟨ps.length, hb⟩ = n :=
      List.getElem_concat_length ps n ps.length rfl hb
    rw [List.get_eq_getElem] at hc
    rw [hc]
    exact hn
  · intro j hj
    have hjp : j < ps.length := hj
    rw [List.getElem_append_left hjp]
    have := h ps[j] (List.getElem_mem hjp)
    simp [this]

theorem set_append_length {α : Type _} (ps : List α) (a b : α) :
    (ps ++ [a]).set ps.length b = ps ++ [b] := by
  rw [List.set_append]
  simp

theorem upsertPartList_last_wins (key : MsgPart → Bool) (n1 n2 : MsgPart) (ps : List MsgPart)
    (h1 : key n1 = true) (_h2 : key n2 = true) :
    upsertPartList key n2 (upsertPartList key n1 ps) = upsertPartList key n2 ps := by
  unfold upsertPartList
  cases h : ps.findIdx? key with
  | some i =>
      rw [findIdx?_set_self key ps i n1 h h1]
      exact List.set_set n1 n2 ps i
  | none =>
      rw [findIdx?_append_of_none key ps n1 h h1]
      exact set_append_length ps n1 n2

theorem countP_set_key {α : Type _} (key : α → Bool) (ps : List α) (i : Nat) (n : α)
    (hi : i < ps.length) (hold : key (ps.get ⟨i, hi⟩) = true) (hnew : key n = true) :
    (ps.set i n).countP key = ps.countP key := by
  induction ps generalizing i with
  | nil => simp at hi
  | cons a as ih =>
      cases i with
      | zero =>
          simp only [List.set]
          simp only [List.get] at hold
          simp [List.countP_cons, hold, hnew]
      | succ j =>
          simp only [List.set]
          have hj : j < as.length := by simpa using hi
          simp only [List.get] at hold
          simp [List.countP_cons, ih j hj hold]

theorem upsertPartList_countP (key : MsgPart → Bool) (n : MsgPart) (ps : List MsgPart)
    (hn : key n = true) :
    (upsertPartList key n ps).countP key = max (ps.countP key) 1 := by
  unfold upsertPartList
  cases h : ps.findIdx? key with
  | none =>
      have h0 : ps.countP key = 0 := List.countP_eq_zero.mpr (by
        intro a ha
        have := (List.findIdx?_eq_none_iff.mp h) a ha
        simp [this])
      simp [List.countP_append, h0, List.countP_cons, hn]
  | some i =>
      rw [List.findIdx?_eq_some_iff_getElem] at h
      obtain ⟨hi, hki, _⟩ := h
      have hpos : 0 < ps.countP key := by
        rw [List.countP_pos_iff]
        exact ⟨ps[i], List.getElem_mem hi, hki⟩
      rw [countP_set_key key ps i n hi (by simpa using hki) hn]
      omega

theorem upsertPartList_fold_last (key : MsgPart → Bool) (ns : List MsgPart) (n : MsgPart)
    (ps : List MsgPart) (hns : ∀ m ∈ ns, key m = true) (hn : key n = true) :
    (ns ++ [n]).foldl (fun acc q => upsertPartList key q acc) ps = upsertPartList key n ps := by
  induction ns generalizing ps with
  | nil => rfl
  | cons a as ih =>
      simp only [List.cons_append, List.foldl_cons]
      rw [ih (upsertPartList key a ps) (fun m hm => hns m (by simp [hm]))]
      exact upsertPartList_last_wins key a n ps (hns a (by simp)) hn

/-! ### Behaviour of the part-updated handler -/

theorem currentPartsOf_update_found (t : String) (u : MsgUpdate) (s : EngineState)
    (m : Message) (hf : s.messages.find? (fun x => x.id == t) = some m)
    (P : List MsgPart) (hu : u.parts = some P) :
    currentPartsOf t (updateMessage t u s) = P := by
  unfold currentPartsOf
  show (match ((s.messages.map fun x =>
          if x.id == t then applyUpdate x u else x).find? fun x => x.id == t) with
        | some m => m.parts
        | none => []) = _
  rw [find?_map_update, hf]
  simp [applyUpdate, hu]

theorem currentPartsOf_update_none (t : String) (u : MsgUpdate) (s : EngineState)
    (hf : s.messages.find? (fun x => x.id == t) = none) :
    currentPartsOf t (updateMessage t u s) = [] := by
  unfold currentPartsOf
  show (match ((s.messages.map fun x =>
          if x.id == t then applyUpdate x u else x).find? fun x => x.id == t) with
        | some m => m.parts
        | none => []) = _
  rw [find?_map_update, hf]
  rfl

theorem upsert_branch_idem (key : MsgPart → Bool) (n : MsgPart) (t : String)
    (mkU : List MsgPart → MsgUpdate) (s : EngineState)
    (hn : key n = true) (hU : ∀ np, (mkU np).parts = some np) :
    updateMessage t
        (mkU (upsertPartList key n
          (currentPartsOf t (updateMessage t (mkU (upsertPartList key n (currentPartsOf t s))) s))))
        (updateMessage t (mkU (upsertPartList key n (currentPartsOf t s))) s)
      = updateMessage t (mkU (upsertPartList key n (currentPartsOf t s))) s := by
  cases hf : s.messages.find? (fun x => x.id == t) with
  | none =>
      have hcp : currentPartsOf t s = [] := by
        unfold currentPartsOf
        rw [hf]
      rw [currentPartsOf_update_none t _ s hf, hcp]
      exact updateMessage_idem t _ s
  | some m =>
      rw [currentPartsOf_update_found t _ s m hf _ (hU _),
          upsertPartList_last_wins key n n (currentPartsOf t s) hn hn]
      exact updateMessage_idem t _ s

theorem isTextKey_mkTextPart (p : PartEv) : isTextKey p.id (mkTextPart p) = true := by
  simp [isTextKey, mkTextPart]

theorem isReasoningKey_mkReasoningPart (p : PartEv) :
    isReasoningKey p.id (mkReasoningPart p) = true := by
  simp [isReasoningKey, mkReasoningPart]

theorem isToolKey_mkToolPart (env : JsonEnv) (p : PartEv) :
    isToolKey p.id (mkToolPart env p) = true := by
  simp only [mkToolPart]
  split_ifs <;> simp [isToolKey]

theorem applyPartContent_idem (env : JsonEnv) (p : PartEv) (t : String) (s : EngineState) :
    applyPartContent env p t (applyPartContent env p t s) = applyPartContent env p t s := by
  by_cases h1 : (p.type == some "text") = true
  · have := upsert_branch_idem (isTextKey p.id) (mkTextPart p) t
        (fun np => { content := some (joinTextContent np), status := some "streaming",
                     parts := some np }) s
        (isTextKey_mkTextPart p) (fun np => rfl)
    simpa [applyPartContent, h1] using this
  · by_cases h2 : (p.type == some "reasoning") = true
    · have := upsert_branch_idem (isReasoningKey p.id) (mkReasoningPart p) t
          (fun np => { status := some "streaming", parts := some np }) s
          (isReasoningKey_mkReasoningPart p) (fun np => rfl)
      simpa [applyPartContent, h1, h2] using this
    · by_cases h3 : (p.type == some "tool") = true
      · have := upsert_branch_idem (isToolKey p.id) (mkToolPart env p) t
            (fun np => { status := some "streaming", parts := some np }) s
            (isToolKey_mkToolPart env p) (fun np => rfl)
        simpa [applyPartContent, h1, h2, h3] using this
      · simp [applyPartContent, h1, h2, h3]

theorem applyPartContent_lastMessageId (env : JsonEnv) (p : PartEv) (t : String)
    (s : EngineState) :
    (applyPartContent env p t s).lastMessageId = s.lastMessageId := by
  unfold applyPartContent
  split_ifs <;> rfl

theorem applyPartContent_userMessageIds (env : JsonEnv) (p : PartEv) (t : String)
    (s : EngineState) :
    (applyPartContent env p t s).userMessageIds = s.userMessageIds := by
  unfold applyPartContent
  split_ifs <;> rfl

theorem ensure_of_truthy (now : Nat) (mid? : Option String) (s : EngineState)
    (h : strTruthy s.lastMessageId = true) :
    ensureAssistantTarget now mid? s = s := by
  unfold ensureAssistantTarget
  simp [h]

theorem ensure_userMessageIds (now : Nat) (mid? : Option String) (s : EngineState) :
    (ensureAssistantTarget now mid? s).userMessageIds = s.userMessageIds := by
  unfold ensureAssistantTarget
  split_ifs
  · dsimp only
    cases s.messages.find? (fun m => m.id == mid?.getD "") <;> rfl
  · rfl

theorem ensure_truthy (now : Nat) (mid? : Option String) (s : EngineState) :
    strTruthy (ensureAssistantTarget now mid? s).lastMessageId
      = (strTruthy mid? || strTruthy s.lastMessageId) := by
  unfold ensureAssistantTarget
  by_cases h : (strTruthy mid? && !(strTruthy s.lastMessageId)) = true
  · rw [if_pos h]
    obtain ⟨hm, hl⟩ : strTruthy mid? = true ∧ strTruthy s.lastMessageId = false := by
      simpa using h
    have hmid : strTruthy (some (mid?.getD "")) = true := by
      cases mid? with
      | none => simp [strTruthy] at hm
      | some m => simpa [strTruthy] using hm
    dsimp only
    cases s.messages.find? (fun m => m.id == mid?.getD "") <;> simp [addMessage, hmid, hm]
  · rw [if_neg h]
    cases ha : strTruthy mid? <;> cases hb : strTruthy s.lastMessageId <;> simp_all

theorem strTruthy_jsOrStr (a b : Option String) :
    strTruthy (jsOrStr a b) = (strTruthy a || strTruthy b) := by
  unfold jsOrStr
  by_cases h : strTruthy a = true <;> simp [h]

theorem handlePartUpdated_none (env : JsonEnv) (now : Nat) (s : EngineState) :
    handlePartUpdated env now none s = s := by
  unfold handlePartUpdated ensureAssistantTarget
  simp [strTruthy, jsOrStr]

theorem handlePartUpdated_guard (env : JsonEnv) (now : Nat) (p : PartEv) (s : EngineState)
    (hg : (strTruthy p.messageID && s.userMessageIds.contains (p.messageID.getD "")) = true) :
    handlePartUpdated env now (some p) s = s := by
  unfold handlePartUpdated
  simp only [Option.some_bind]
  rw [if_pos hg]

theorem handlePartUpdated_some (env : JsonEnv) (now : Nat) (p : PartEv) (s : EngineState)
    (hg : (strTruthy p.messageID && s.userMessageIds.contains (p.messageID.getD "")) = false) :
    handlePartUpdated env now (some p) s
      = (if !(strTruthy (jsOrStr (ensureAssistantTarget now p.messageID s).lastMessageId p.messageID)) then
           ensureAssistantTarget now p.messageID s
         else
           applyPartContent env p
             ((jsOrStr (ensureAssistantTarget now p.messageID s).lastMessageId p.messageID).getD "")
             (ensureAssistantTarget now p.messageID s)) := by
  unfold handlePartUpdated
  simp only [Option.some_bind]
  rw [if_neg (by rw [hg]; simp)]

theorem handlePartUpdated_idem (env : JsonEnv) (now now2 : Nat) (pev : Option PartEv)
    (s : EngineState) :
    handlePartUpdated env now2 pev (handlePartUpdated env now pev s)
      = handlePartUpdated env now pev s := by
  cases pev with
  | none => rw [handlePartUpdated_none, handlePartUpdated_none]
  | some p =>
      by_cases hg : (strTruthy p.messageID && s.userMessageIds.contains (p.messageID.getD "")) = true
      · rw [handlePartUpdated_guard env now p s hg, handlePartUpdated_guard env now2 p s hg]
      · have hgf : (strTruthy p.messageID && s.userMessageIds.contains (p.messageID.getD "")) = false := by
          simpa using hg
        by_cases ht : strTruthy (jsOrStr (ensureAssistantTarget now p.messageID s).lastMessageId p.messageID) = true
        · -- mutating path: a target is resolved, so the active-message tracker is truthy
          have hl : strTruthy (ensureAssistantTarget now p.messageID s).lastMessageId = true := by
            have hA := ensure_truthy now p.messageID s
            have hOr : (strTruthy (ensureAssistantTarget now p.messageID s).lastMessageId
                || strTruthy p.messageID) = true := by
              rw [← strTruthy_jsOrStr]
              exact ht
            cases hB : strTruthy p.messageID with
            | true =>
                rw [hA, hB]
                simp
            | false =>
                rw [hB] at hOr
                simpa using hOr
          have hjs : jsOrStr (ensureAssistantTarget now p.messageID s).lastMessageId p.messageID
              = (ensureAssistantTarget now p.messageID s).lastMessageId := by
            unfold jsOrStr
            rw [if_pos hl]
          have hH : handlePartUpdated env now (some p) s
              = applyPartContent env p
                  (((ensureAssistantTarget now p.messageID s).lastMessageId).getD "")
                  (ensureAssistantTarget now p.messageID s) := by
            rw [handlePartUpdated_some env now p s hgf, hjs, if_neg (by simp [hl])]
          have hg2 : (strTruthy p.messageID &&
              (applyPartContent env p
                (((ensureAssistantTarget now p.messageID s).lastMessageId).getD "")
                (ensureAssistantTarget now p.messageID s)).userMessageIds.contains
                  (p.messageID.getD "")) = false := by
            rw [applyPartContent_userMessageIds, ensure_userMessageIds]
            exact hgf
          have hl2 : (applyPartContent env p
                (((ensureAssistantTarget now p.messageID s).lastMessageId).getD "")
                (ensureAssistantTarget now p.messageID s)).lastMessageId
              = (ensureAssistantTarget now p.messageID s).lastMessageId :=
            applyPartContent_lastMessageId env p _ _
          have hens2 : ensureAssistantTarget now2 p.messageID
              (applyPartContent env p
                (((ensureAssistantTarget now p.messageID s).lastMessageId).getD "")
                (ensureAssistantTarget now p.messageID s))
              = applyPartContent env p
                  (((ensureAssistantTarget now p.messageID s).lastMessageId).getD "")
                  (ensureAssistantTarget now p.messageID s) :=
            ensure_of_truthy now2 p.messageID _ (by rw [hl2]; exact hl)
          have hH2 : handlePartUpdated env now2 (some p)
              (applyPartContent env p
                (((ensureAssistantTarget now p.messageID s).lastMessageId).getD "")
                (ensureAssistantTarget now p.messageID s))
              = applyPartContent env p
                  (((ensureAssistantTarget now p.messageID s).lastMessageId).getD "")
                  (applyPartContent env p
                    (((ensureAssistantTarget now p.messageID s).lastMessageId).getD "")
                    (ensureAssistantTarget now p.messageID s)) := by
            rw [handlePartUpdated_some env now2 p _ hg2, hens2]
            have hjs2 : jsOrStr (applyPartContent env p
                (((ensureAssistantTarget now p.messageID s).lastMessageId).getD "")
                (ensureAssistantTarget now p.messageID s)).lastMessageId p.messageID
                = (ensureAssistantTarget now p.messageID s).lastMessageId := by
              unfold jsOrStr
              rw [hl2, if_pos hl]
            rw [hjs2, if_neg (by simp [hl])]
          rw [hH, hH2]
          exact applyPartContent_idem env p _ _
        · -- non-mutating path: no truthy target, the handler is the identity
          have htf : strTruthy (jsOrStr (ensureAssistantTarget now p.messageID s).lastMessageId p.messageID) = false := by
            simpa using ht
          have hAB : strTruthy (ensureAssistantTarget now p.messageID s).lastMessageId = false
              ∧ strTruthy p.messageID = false := by
            rw [strTruthy_jsOrStr] at htf
            simpa using htf
          have hs1 : ensureAssistantTarget now p.messageID s = s := by
            unfold ensureAssistantTarget
            rw [if_neg]
            simp [hAB.2]
          have hCfalse : strTruthy s.lastMessageId = false := by
            have := hAB.1
            rw [hs1] at this
            exact this
          have hident : ∀ nw, handlePartUpdated env nw (some p) s = s := by
            intro nw
            have hs1nw : ensureAssistantTarget nw p.messageID s = s := by
              unfold ensureAssistantTarget
              rw [if_neg]
              simp [hAB.2]
            rw [handlePartUpdated_some env nw p s hgf, hs1nw, if_pos]
            rw [strTruthy_jsOrStr, hCfalse, hAB.2]
            rfl
          rw [hident now, hident now2]

/-! ### Shape of the message list across one reconciliation step -/

theorem ensure_messages (now : Nat) (mid? : Option String) (s : EngineState) :
    ∃ extra, (ensureAssistantTarget now mid? s).messages = s.messages ++ extra := by
  unfold ensureAssistantTarget
  split_ifs
  · dsimp only
    cases s.messages.find? (fun m => m.id == mid?.getD "") with
    | none => exact ⟨[stubFromPart now (mid?.getD "")], rfl⟩
    | some _ => exact ⟨[], (List.append_nil _).symm⟩
  · exact ⟨[], (List.append_nil _).symm⟩

theorem applyPartContent_shape (env : JsonEnv) (p : PartEv) (t : String) (s : EngineState) :
    applyPartContent env p t s = s
    ∨ ∃ u, u.status = some "streaming" ∧ applyPartContent env p t s = updateMessage t u s := by
  unfold applyPartContent
  split_ifs
  · right
    exact ⟨_, rfl, rfl⟩
  · right
    exact ⟨_, rfl, rfl⟩
  · right
    exact ⟨_, rfl, rfl⟩
  · left
    rfl

theorem terminalCleanup_messages (s : EngineState) :
    (terminalCleanup s).messages = s.messages
    ∨ ∃ t, (terminalCleanup s).messages
        = s.messages.map fun m =>
            if m.id == t then applyUpdate m { status := some "complete" } else m := by
  unfold terminalCleanup
  split_ifs
  · right
    exact ⟨s.lastMessageId.getD "", rfl⟩
  · left
    rfl

theorem handleMessageInfo_messages (now : Nat) (info : MsgInfo) (s : EngineState) :
    ∃ extra, (handleMessageInfo now info s).messages = s.messages ++ extra := by
  unfold handleMessageInfo
  dsimp only
  by_cases ha : (info.role == "assistant") = true
  · rw [if_pos ha]
    cases s.messages.find? (fun m => m.id == info.id) with
    | none => exact ⟨_, rfl⟩
    | some _ => exact ⟨[], (List.append_nil _).symm⟩
  · rw [if_neg ha]
    exact ⟨[], (List.append_nil _).symm⟩

theorem handlePartUpdated_shape (env : JsonEnv) (now : Nat) (pev : Option PartEv)
    (s : EngineState) :
    (∃ extra, (handlePartUpdated env now pev s).messages = s.messages ++ extra)
    ∨ (∃ extra t u, u.status = some "streaming"
        ∧ (handlePartUpdated env now pev s).messages
            = (s.messages ++ extra).map fun m => if m.id == t then applyUpdate m u else m) := by
  cases pev with
  | none =>
      left
      exact ⟨[], by rw [handlePartUpdated_none]; exact (List.append_nil _).symm⟩
  | some p =>
      by_cases hg : (strTruthy p.messageID && s.userMessageIds.contains (p.messageID.getD "")) = true
      · left
        exact ⟨[], by rw [handlePartUpdated_guard env now p s hg]; exact (List.append_nil _).symm⟩
      · have hgf : (strTruthy p.messageID && s.userMessageIds.contains (p.messageID.getD "")) = false := by
          simpa using hg
        obtain ⟨extra, hex⟩ := ensure_messages now p.messageID s
        by_cases ht : strTruthy (jsOrStr (ensureAssistantTarget now p.messageID s).lastMessageId p.messageID) = true
        · rcases applyPartContent_shape env p
              ((jsOrStr (ensureAssistantTarget now p.messageID s).lastMessageId p.messageID).getD "")
              (ensureAssistantTarget now p.messageID s) with hid | ⟨u, hu, hupd⟩
          · left
            refine ⟨extra, ?_⟩
            rw [handlePartUpdated_some env now p s hgf, if_neg (by rw [ht]; simp), hid]
            exact hex
          · right
            refine ⟨extra,
              ((jsOrStr (ensureAssistantTarget now p.messageID s).lastMessageId p.messageID).getD ""),
              u, hu, ?_⟩
            rw [handlePartUpdated_some env now p s hgf, if_neg (by rw [ht]; simp), hupd, ← hex]
            rfl
        · left
          refine ⟨extra, ?_⟩
          have htf : strTruthy (jsOrStr (ensureAssistantTarget now p.messageID s).lastMessageId p.messageID) = false := by
            simpa using ht
          rw [handlePartUpdated_some env now p s hgf, if_pos (by rw [htf]; rfl)]
          exact hex

/-- C1: applying the reconciliation handler to the same
`message.part.updated` event twice in succession yields the same store
state as applying it once (for any wall-clock times of the two
applications); and for part events within one message sharing the same
`(type, id)` upsert key, the handler's in-place upsert makes the last
event win while preserving the part's position: folding a whole same-key
sequence over a part list equals applying only the last event's upsert,
and an upsert never creates a duplicate part for its key (the number of
key-matching parts afterwards is `max existing 1`). -/
theorem c1_part_event_idempotent_last_write_wins :
    (∀ (env : JsonEnv) (now now2 : Nat) (pev : Option PartEv) (s : EngineState),
        handleEvent env now2 (Event.messagePartUpdated pev)
            (handleEvent env now (Event.messagePartUpdated pev) s)
          = handleEvent env now (Event.messagePartUpdated pev) s)
    ∧ (∀ (key : MsgPart → Bool) (ns : List MsgPart) (n : MsgPart) (ps : List MsgPart),
        (∀ m ∈ ns, key m = true) → key n = true →
        (ns ++ [n]).foldl (fun acc q => upsertPartList key q acc) ps = upsertPartList key n ps)
    ∧ (∀ (key : MsgPart → Bool) (n : MsgPart) (ps : List MsgPart),
        key n = true → (upsertPartList key n ps).countP key = max (ps.countP key) 1) := by
  refine ⟨?_, ?_, ?_⟩
  · intro env now now2 pev s
    exact handlePartUpdated_idem env now now2 pev s
  · exact upsertPartList_fold_last
  · exact upsertPartList_countP

/-- Witness for C1 at concrete inputs: two successive text parts for the
key `(text, p1)` collapse to the last one, which is the only part stored
for the key. -/
theorem c1_part_event_idempotent_last_write_wins_witness :
    (∀ m ∈ [p1PartA], p1TextKey m = true) ∧ p1TextKey p1PartB = true
      ∧ ([p1PartA] ++ [p1PartB]).foldl (fun acc q => upsertPartList p1TextKey q acc) []
          = upsertPartList p1TextKey p1PartB []
      ∧ (upsertPartList p1TextKey p1PartB []).countP p1TextKey
          = max (([] : List MsgPart).countP p1TextKey) 1 := by
  refine ⟨by decide, by decide, ?_, ?_⟩
  · exact c1_part_event_idempotent_last_write_wins.2.1 p1TextKey [p1PartA] p1PartB []
      (by decide) (by decide)
  · exact c1_part_event_idempotent_last_write_wins.2.2 p1TextKey p1PartB [] (by decide)

/-! ### Index-level consequences of the step shape -/

theorem map_id_update (t : String) (u : MsgUpdate) (l : List Message) :
    (l.map fun m => if m.id == t then applyUpdate m u else m).map (fun m => m.id)
      = l.map fun m => m.id := by
  rw [List.map_map]
  apply List.map_congr_left
  intro m _
  by_cases h : m.id == t <;> simp [Function.comp, h, applyUpdate_id]

theorem getD_of_lt (l : List Message) (i : Nat) (hi : i < l.length) :
    l.getD i dummyMessage = l.get ⟨i, hi⟩ := by
  rw [List.getD_eq_getElem?_getD, List.getElem?_eq_getElem hi]
  rfl

theorem applyUpdate_status_of_some (m : Message) (u : MsgUpdate) (st : String)
    (h : u.status = some st) : (applyUpdate m u).status = some st := by
  simp [applyUpdate, h]

theorem handleEvent_messages_shape (env : JsonEnv) (now : Nat) (e : Event) (s : EngineState) :
    (∃ extra, (handleEvent env now e s).messages = s.messages ++ extra)
    ∨ (∃ extra t u,
        ((isPartUpdatedEvent e = true ∧ u.status = some "streaming")
          ∨ (isTerminalEvent e = true ∧ u.status = some "complete"))
        ∧ (handleEvent env now e s).messages
            = (s.messages ++ extra).map fun m => if m.id == t then applyUpdate m u else m) := by
  cases e with
  | permissionRequest req =>
      left
      exact ⟨[], (List.append_nil _).symm⟩
  | messageCreated info =>
      left
      exact handleMessageInfo_messages now info s
  | messageUpdated info =>
      left
      exact handleMessageInfo_messages now info s
  | messagePartUpdated pev =>
      rcases handlePartUpdated_shape env now pev s with h | ⟨extra, t, u, hu, h⟩
      · left
        exact h
      · right
        exact ⟨extra, t, u, Or.inl ⟨rfl, hu⟩, h⟩
  | sessionStatus st =>
      by_cases hb : (st == some "busy") = true
      · left
        refine ⟨[], ?_⟩
        show (handleSessionStatus st s).messages = _
        unfold handleSessionStatus
        rw [if_pos hb]
        exact (List.append_nil _).symm
      · by_cases hi : (st == some "idle") = true
        · rcases terminalCleanup_messages s with h | ⟨t, h⟩
          · left
            refine ⟨[], ?_⟩
            show (handleSessionStatus st s).messages = _
            unfold handleSessionStatus
            rw [if_neg hb, if_pos hi, h]
            exact (List.append_nil _).symm
          · right
            refine ⟨[], t, { status := some "complete" }, Or.inr ⟨hi, rfl⟩, ?_⟩
            show (handleSessionStatus st s).messages = _
            unfold handleSessionStatus
            rw [if_neg hb, if_pos hi, List.append_nil]
            exact h
        · left
          refine ⟨[], ?_⟩
          show (handleSessionStatus st s).messages = _
          unfold handleSessionStatus
          rw [if_neg hb, if_neg hi]
          exact (List.append_nil _).symm
  | sessionIdle =>
      rcases terminalCleanup_messages s with h | ⟨t, h⟩
      · left
        refine ⟨[], ?_⟩
        show (terminalCleanup s).messages = _
        rw [h]
        exact (List.append_nil _).symm
      · right
        refine ⟨[], t, { status := some "complete" }, Or.inr ⟨rfl, rfl⟩, ?_⟩
        show (terminalCleanup s).messages = _
        rw [List.append_nil]
        exact h
  | runCompleted =>
      rcases terminalCleanup_messages s with h | ⟨t, h⟩
      · left
        refine ⟨[], ?_⟩
        show (terminalCleanup s).messages = _
        rw [h]
        exact (List.append_nil _).symm
      · right
        refine ⟨[], t, { status := some "complete" }, Or.inr ⟨rfl, rfl⟩, ?_⟩
        show (terminalCleanup s).messages = _
        rw [List.append_nil]
        exact h
  | runFailed =>
      rcases terminalCleanup_messages s with h | ⟨t, h⟩
      · left
        refine ⟨[], ?_⟩
        show (terminalCleanup s).messages = _
        rw [h]
        exact (List.append_nil _).symm
      · right
        refine ⟨[], t, { status := some "complete" }, Or.inr ⟨rfl, rfl⟩, ?_⟩
        show (terminalCleanup s).messages = _
        rw [List.append_nil]
        exact h
  | sessionError msg er =>
      rcases terminalCleanup_messages
          { s with error := some (jsOrStrD msg (jsOrStrD er "Session error occurred")) }
        with h | ⟨t, h⟩
      · left
        refine ⟨[], ?_⟩
        show (terminalCleanup _).messages = _
        rw [h]
        exact (List.append_nil _).symm
      · right
        refine ⟨[], t, { status := some "complete" }, Or.inr ⟨rfl, rfl⟩, ?_⟩
        show (terminalCleanup _).messages = _
        rw [List.append_nil]
        exact h
  | sessionCreated i =>
      left
      refine ⟨[], ?_⟩
      show (handleSessionCreated now i s).messages = _
      unfold handleSessionCreated
      cases i with
      | none => exact (List.append_nil _).symm
      | some info =>
          dsimp only
          split_ifs <;> exact (List.append_nil _).symm
  | sessionUpdated i =>
      left
      refine ⟨[], ?_⟩
      show (handleSessionUpdated now i s).messages = _
      unfold handleSessionUpdated
      cases i with
      | none => exact (List.append_nil _).symm
      | some info => exact (List.append_nil _).symm
  | serverHeartbeat =>
      left
      exact ⟨[], (List.append_nil _).symm⟩
  | serverConnected =>
      left
      exact ⟨[], (List.append_nil _).symm⟩
  | unknownEvent =>
      left
      exact ⟨[], (List.append_nil _).symm⟩

/-- C2 counterexample: the claim that a message's status never transitions
backward fails on the code — a message whose status is already `complete`
is returned to `streaming` by handling a later `message.part.updated`
event that targets it. -/
theorem c2_counterexample_backward_status :
    completedState.messages.map (fun m => m.status) = [some "complete"]
    ∧ (handleEvent trivialJson 0 hiPartEvent completedState).messages.map (fun m => m.status)
        = [some "streaming"] := by
  constructor
  · rfl
  · rfl

/-- C2 amended: for every single reconciliation step, existing messages
keep their ids and positions (the id list is only ever extended at the
end), and an existing message's status is either unchanged, or set to
`streaming` by a `message.part.updated` event targeting it (even from
`complete`, the backward step the original claim ruled out), or set to
`complete` by a terminal event while it is the active assistant message. -/
theorem c2_amended_ids_stable_status_step (env : JsonEnv) (now : Nat) (e : Event)
    (s : EngineState) (i : Nat) (hi : i < s.messages.length) :
    (∃ extra, (handleEvent env now e s).messages.map (fun m => m.id)
        = s.messages.map (fun m => m.id) ++ extra)
    ∧ (((handleEvent env now e s).messages.getD i dummyMessage).status
          = (s.messages.getD i dummyMessage).status
        ∨ (isPartUpdatedEvent e = true
            ∧ ((handleEvent env now e s).messages.getD i dummyMessage).status = some "streaming")
        ∨ (isTerminalEvent e = true
            ∧ ((handleEvent env now e s).messages.getD i dummyMessage).status = some "complete")) := by
  rcases handleEvent_messages_shape env now e s with ⟨extra, h⟩ | ⟨extra, t, u, hside, h⟩
  · constructor
    · exact ⟨extra.map (fun m => m.id), by rw [h, List.map_append]⟩
    · left
      rw [h, List.getD_eq_getElem?_getD, List.getD_eq_getElem?_getD,
          List.getElem?_append_left hi]
  · have hlen : i < (s.messages ++ extra).length := by
      rw [List.length_append]
      omega
    have hmap : i < ((s.messages ++ extra).map fun m =>
        if m.id == t then applyUpdate m u else m).length := by
      rw [List.length_map]
      exact hlen
    constructor
    · refine ⟨extra.map (fun m => m.id), ?_⟩
      rw [h, map_id_update, List.map_append]
    · rw [h]
      have hrw : (((s.messages ++ extra).map fun m =>
            if m.id == t then applyUpdate m u else m).getD i dummyMessage)
          = (if (s.messages.getD i dummyMessage).id == t then
               applyUpdate (s.messages.getD i dummyMessage) u
             else s.messages.getD i dummyMessage) := by
        rw [getD_of_lt _ i hmap, getD_of_lt s.messages i hi]
        simp only [List.get_eq_getElem, List.getElem_map]
        rw [List.getElem_append_left hi]
      rw [hrw]
      by_cases hm : ((s.messages.getD i dummyMessage).id == t) = true
      · rw [if_pos hm]
        rcases hside with ⟨hp, hu⟩ | ⟨hterm, hu⟩
        · right
          left
          exact ⟨hp, applyUpdate_status_of_some _ u _ hu⟩
        · right
          right
          exact ⟨hterm, applyUpdate_status_of_some _ u _ hu⟩
      · rw [if_neg hm]
        left
        rfl

/-- Witness for C2 amended, at the backward-transition input itself: index
zero of the completed store, hit by a part event. -/
theorem c2_amended_ids_stable_status_step_witness :
    0 < completedState.messages.length
    ∧ ((∃ extra, (handleEvent trivialJson 0 hiPartEvent completedState).messages.map (fun m => m.id)
          = completedState.messages.map (fun m => m.id) ++ extra)
       ∧ (((handleEvent trivialJson 0 hiPartEvent completedState).messages.getD 0 dummyMessage).status
            = (completedState.messages.getD 0 dummyMessage).status
          ∨ (isPartUpdatedEvent hiPartEvent = true
              ∧ ((handleEvent trivialJson 0 hiPartEvent completedState).messages.getD 0 dummyMessage).status
                  = some "streaming")
          ∨ (isTerminalEvent hiPartEvent = true
              ∧ ((handleEvent trivialJson 0 hiPartEvent completedState).messages.getD 0 dummyMessage).status
                  = some "complete"))) :=
  ⟨by decide,
   c2_amended_ids_stable_status_step trivialJson 0 hiPartEvent completedState 0 (by decide)⟩

/-- C3 counterexample: with `pendingSessionId = sA` while a different
session is current, `switchSession sA` does replace the store's messages —
the claim that a switch to the pending session never reloads fails,
because `switchSession` clears the pending id before the load runs. -/
theorem c3_counterexample_pending_switch_reloads :
    pendingElsewhereState.pendingSessionId = some "sA"
    ∧ pendingElsewhereState.messages ≠ []
    ∧ (switchSession [] "sA" pendingElsewhereState).messages = [] := by
  refine ⟨rfl, by decide, rfl⟩

/-- C3 amended: `switchSession` always clears `pendingSessionId` first, so
the pending guard never suppresses its reload; instead, the store's
messages are replaced by the fetched history exactly when the target id
differs from the currently selected session id (when they coincide the
selection effect does not re-fire and the store keeps its messages). -/
theorem c3_amended_switch_reload_iff_changed (hist : List Message) (sid : String)
    (s : EngineState) :
    (switchSession hist sid s).pendingSessionId = none
    ∧ (s.currentSessionId = some sid → switchSession hist sid s
        = { s with pendingSessionId := none, userMessageIds := [], lastMessageId := none })
    ∧ (s.currentSessionId ≠ some sid →
        (switchSession hist sid s).messages = hist
        ∧ (switchSession hist sid s).currentSessionId = some sid) := by
  refine ⟨?_, ?_, ?_⟩
  · unfold switchSession setCurrentSessionEffect loadSessionMessages
    dsimp only
    split_ifs <;> rfl
  · intro hcur
    unfold switchSession setCurrentSessionEffect
    dsimp only
    rw [if_pos (by rw [hcur]; exact beq_self_eq_true _)]
  · intro hcur
    have hb : (s.currentSessionId == some sid) = false := by
      rw [beq_eq_false_iff_ne]
      exact hcur
    unfold switchSession setCurrentSessionEffect loadSessionMessages
    dsimp only
    rw [if_neg (by rw [hb]; simp), if_neg (by simp)]
    exact ⟨rfl, rfl⟩

/-- Witness for C3 amended: switching to the already-current session keeps
the messages; switching to the (pending) other session replaces them. -/
theorem c3_amended_switch_reload_iff_changed_witness :
    (switchSession [] "sB" pendingElsewhereState).pendingSessionId = none
    ∧ switchSession [] "sB" pendingElsewhereState
        = { pendingElsewhereState with pendingSessionId := none, userMessageIds := [], lastMessageId := none }
    ∧ (switchSession [] "sA" pendingElsewhereState).messages = []
    ∧ (switchSession [] "sA" pendingElsewhereState).currentSessionId = some "sA" :=
  ⟨(c3_amended_switch_reload_iff_changed [] "sB" pendingElsewhereState).1,
   (c3_amended_switch_reload_iff_changed [] "sB" pendingElsewhereState).2.1 (by decide),
   ((c3_amended_switch_reload_iff_changed [] "sA" pendingElsewhereState).2.2 (by decide)).1,
   ((c3_amended_switch_reload_iff_changed [] "sA" pendingElsewhereState).2.2 (by decide)).2⟩

/-! ### Creation of an assistant message from an orphan part event -/

theorem upsertPartList_nil (key : MsgPart → Bool) (n : MsgPart) :
    upsertPartList key n [] = [n] := rfl

theorem applyPartContent_of_empty (env : JsonEnv) (p : PartEv) (t : String) (s : EngineState)
    (hcp : currentPartsOf t s = []) :
    applyPartContent env p t s = s
    ∨ ∃ u n, u.status = some "streaming" ∧ u.parts = some [n]
        ∧ applyPartContent env p t s = updateMessage t u s := by
  unfold applyPartContent
  dsimp only
  rw [hcp]
  split_ifs
  · right
    exact ⟨_, mkTextPart p, rfl, rfl, rfl⟩
  · right
    exact ⟨_, mkReasoningPart p, rfl, rfl, rfl⟩
  · right
    exact ⟨_, mkToolPart env p, rfl, rfl, rfl⟩
  · left
    rfl

theorem map_update_append_of_absent (t : String) (u : MsgUpdate) (l : List Message)
    (hl : ∀ m ∈ l, (m.id == t) = false) (x : Message) (hx : (x.id == t) = true) :
    ((l ++ [x]).map fun m => if m.id == t then applyUpdate m u else m)
      = l ++ [applyUpdate x u] := by
  rw [List.map_append]
  congr 1
  · have hmm : ∀ m ∈ l, (if m.id == t then applyUpdate m u else m) = id m := by
      intro m hm
      rw [if_neg (by rw [hl m hm]; simp)]
      rfl
    rw [List.map_congr_left hmm, List.map_id]
  · rw [List.map_cons, List.map_nil, if_pos hx]

theorem handlePartUpdated_length_of_truthy (env : JsonEnv) (now : Nat) (pev : Option PartEv)
    (s : EngineState) (h : strTruthy s.lastMessageId = true) :
    (handlePartUpdated env now pev s).messages.length = s.messages.length := by
  cases pev with
  | none => rw [handlePartUpdated_none]
  | some p =>
      by_cases hg : (strTruthy p.messageID && s.userMessageIds.contains (p.messageID.getD "")) = true
      · rw [handlePartUpdated_guard env now p s hg]
      · have hgf : (strTruthy p.messageID && s.userMessageIds.contains (p.messageID.getD "")) = false := by
          simpa using hg
        rw [handlePartUpdated_some env now p s hgf, ensure_of_truthy now p.messageID s h]
        have hjs : jsOrStr s.lastMessageId p.messageID = s.lastMessageId := by
          unfold jsOrStr
          rw [if_pos h]
        rw [hjs, if_neg (by rw [h]; simp)]
        rcases applyPartContent_shape env p (s.lastMessageId.getD "") s with hid | ⟨u, _, hupd⟩
        · rw [hid]
        · rw [hupd]
          show ((s.messages.map _).length) = _
          rw [List.length_map]

/-- C4: a `message.part.updated` event whose (nonempty) owning message id
is unknown — no message with that id in the store, the id not tracked as a
user message — arriving while no assistant message is active creates
exactly one new assistant message: the id list gains exactly that id at
the end, the new message has role `assistant` and status `streaming`
(created with empty parts, it carries at most the one part of this event),
and it becomes the active target, so a second part event arriving straight
after (before any message-level event) creates no additional message. -/
theorem c4_unknown_part_creates_exactly_one (env : JsonEnv) (now now2 : Nat)
    (p : PartEv) (pev2 : Option PartEv) (s : EngineState) (mid : String)
    (hmid : p.messageID = some mid) (hne : mid ≠ "")
    (huser : s.userMessageIds.contains mid = false)
    (hmem : ∀ m ∈ s.messages, m.id ≠ mid)
    (hlast : s.lastMessageId = none) :
    ((handleEvent env now (Event.messagePartUpdated (some p)) s).messages.map (fun m => m.id)
        = s.messages.map (fun m => m.id) ++ [mid])
    ∧ (handleEvent env now (Event.messagePartUpdated (some p)) s).lastMessageId = some mid
    ∧ (∃ newMsg,
        (handleEvent env now (Event.messagePartUpdated (some p)) s).messages
            = s.messages ++ [newMsg]
        ∧ newMsg.id = mid ∧ newMsg.role = "assistant"
        ∧ newMsg.status = some "streaming" ∧ newMsg.parts.length ≤ 1)
    ∧ (handleEvent env now2 (Event.messagePartUpdated pev2)
          (handleEvent env now (Event.messagePartUpdated (some p)) s)).messages.length
        = s.messages.length + 1 := by
  simp only [handleEvent]
  have hbe : (mid == "") = false := beq_eq_false_iff_ne.mpr hne
  have hst : strTruthy (some mid) = true := by simp [strTruthy, hbe]
  have habs : s.messages.find? (fun m => m.id == mid) = none :=
    List.find?_eq_none.mpr (fun x hx => by simpa using hmem x hx)
  have hgf : (strTruthy p.messageID && s.userMessageIds.contains (p.messageID.getD "")) = false := by
    rw [hmid]
    show (strTruthy (some mid) && s.userMessageIds.contains mid) = false
    rw [hst, Bool.true_and]
    exact huser
  have hens : ensureAssistantTarget now p.messageID s
      = addMessage (stubFromPart now mid) { s with lastMessageId := some mid } := by
    unfold ensureAssistantTarget
    rw [hmid, hlast]
    rw [if_pos (by rw [hst]; rfl)]
    dsimp only [Option.getD]
    rw [habs]
  have hjs : jsOrStr (addMessage (stubFromPart now mid)
        { s with lastMessageId := some mid }).lastMessageId p.messageID = some mid := by
    rw [hmid]
    show jsOrStr (some mid) (some mid) = some mid
    unfold jsOrStr
    rw [if_pos hst]
  have hfind1 : (addMessage (stubFromPart now mid)
        { s with lastMessageId := some mid }).messages.find? (fun m => m.id == mid)
      = some (stubFromPart now mid) := by
    show (s.messages ++ [stubFromPart now mid]).find? (fun m => m.id == mid) = _
    rw [List.find?_append, habs, Option.none_or]
    rw [@List.find?_cons_of_pos _ (fun m => m.id == mid) (stubFromPart now mid) []
        (by simp [stubFromPart])]
  have hcp : currentPartsOf mid (addMessage (stubFromPart now mid)
        { s with lastMessageId := some mid }) = [] := by
    unfold currentPartsOf
    rw [hfind1]
    rfl
  have hH : handlePartUpdated env now (some p) s
      = applyPartContent env p mid
          (addMessage (stubFromPart now mid) { s with lastMessageId := some mid }) := by
    rw [handlePartUpdated_some env now p s hgf, hens, hjs]
    rw [if_neg (by rw [hst]; simp)]
    rfl
  have hlmem : ∀ m ∈ s.messages, (m.id == mid) = false :=
    fun m hm => beq_eq_false_iff_ne.mpr (hmem m hm)
  have hstubid : ((stubFromPart now mid).id == mid) = true := by simp [stubFromPart]
  rcases applyPartContent_of_empty env p mid _ hcp with hid | ⟨u, n, hust, hup, hupd⟩
  · have hmsgs : (handlePartUpdated env now (some p) s).messages
        = s.messages ++ [stubFromPart now mid] := by
      rw [hH, hid]
      rfl
    have hlast1 : (handlePartUpdated env now (some p) s).lastMessageId = some mid := by
      rw [hH, hid]
      rfl
    refine ⟨?_, hlast1, ⟨stubFromPart now mid, hmsgs, rfl, rfl, rfl, by simp [stubFromPart]⟩, ?_⟩
    · rw [hmsgs, List.map_append]
      rfl
    · rw [handlePartUpdated_length_of_truthy env now2 pev2 _ (by rw [hlast1]; exact hst),
          hmsgs, List.length_append]
      rfl
  · have hmsgs : (handlePartUpdated env now (some p) s).messages
        = s.messages ++ [applyUpdate (stubFromPart now mid) u] := by
      rw [hH, hupd]
      show ((s.messages ++ [stubFromPart now mid]).map fun m =>
          if m.id == mid then applyUpdate m u else m) = _
      exact map_update_append_of_absent mid u s.messages hlmem _ hstubid
    have hlast1 : (handlePartUpdated env now (some p) s).lastMessageId = some mid := by
      rw [hH, hupd]
      rfl
    refine ⟨?_, hlast1,
      ⟨applyUpdate (stubFromPart now mid) u, hmsgs, applyUpdate_id _ u,
        applyUpdate_role _ u, applyUpdate_status_of_some _ u _ hust, ?_⟩, ?_⟩
    · rw [hmsgs, List.map_append]
      have : (applyUpdate (stubFromPart now mid) u).id = mid := applyUpdate_id _ u
      simp [this]
    · show (u.parts.getD (stubFromPart now mid).parts).length ≤ 1
      rw [hup]
      rfl
    · rw [handlePartUpdated_length_of_truthy env now2 pev2 _ (by rw [hlast1]; exact hst),
          hmsgs, List.length_append]
      rfl

/-- Witness for C4: the orphan text part event for `mX` against the empty
initial state, followed by the same event again. -/
theorem c4_unknown_part_creates_exactly_one_witness :
    (unknownIdPart.messageID = some "mX" ∧ ("mX" : String) ≠ ""
      ∧ initialState.userMessageIds.contains "mX" = false
      ∧ (∀ m ∈ initialState.messages, m.id ≠ "mX")
      ∧ initialState.lastMessageId = none)
    ∧ ((handleEvent trivialJson 0 (Event.messagePartUpdated (some unknownIdPart)) initialState).messages.map (fun m => m.id)
        = initialState.messages.map (fun m => m.id) ++ ["mX"])
    ∧ (handleEvent trivialJson 0 (Event.messagePartUpdated (some unknownIdPart)) initialState).lastMessageId = some "mX"
    ∧ (∃ newMsg,
        (handleEvent trivialJson 0 (Event.messagePartUpdated (some unknownIdPart)) initialState).messages
            = initialState.messages ++ [newMsg]
        ∧ newMsg.id = "mX" ∧ newMsg.role = "assistant"
        ∧ newMsg.status = some "streaming" ∧ newMsg.parts.length ≤ 1)
    ∧ (handleEvent trivialJson 1 (Event.messagePartUpdated (some unknownIdPart))
          (handleEvent trivialJson 0 (Event.messagePartUpdated (some unknownIdPart)) initialState)).messages.length
        = initialState.messages.length + 1 :=
  ⟨⟨by decide, by decide, by decide, by decide, by decide⟩,
   c4_unknown_part_creates_exactly_one trivialJson 0 1 unknownIdPart (some unknownIdPart)
     initialState "mX" (by decide) (by decide) (by decide) (by decide) (by decide)⟩

/-- C5 counterexample: the store's append is not an idempotent insert —
adding a message whose id `m1` is already present is not a no-op: it
appends a second entry with that id. -/
theorem c5_counterexample_duplicate_append :
    completedState.messages.map (fun m => m.id) = ["m1"]
    ∧ dupUserMessage.id = "m1"
    ∧ (addMessage dupUserMessage completedState).messages ≠ completedState.messages
    ∧ (addMessage dupUserMessage completedState).messages.countP (fun m => m.id == "m1") = 2 := by
  exact ⟨rfl, rfl, by decide, by decide⟩

/-- C5 amended: `addMessage` appends unconditionally at the end — the
store has no duplicate-id guard, so appending a message whose id is
already present yields at least two entries with that id (deduplication is
the callers' responsibility). -/
theorem c5_amended_append_unconditional (m : Message) (s : EngineState)
    (hdup : m.id ∈ s.messages.map (fun x => x.id)) :
    (addMessage m s).messages = s.messages ++ [m]
    ∧ 2 ≤ (addMessage m s).messages.countP (fun x => x.id == m.id) := by
  refine ⟨rfl, ?_⟩
  show 2 ≤ (s.messages ++ [m]).countP _
  rw [List.countP_append]
  have h1 : 0 < s.messages.countP (fun x => x.id == m.id) := by
    rw [List.countP_pos_iff]
    obtain ⟨x, hx, hxid⟩ := List.mem_map.mp hdup
    exact ⟨x, hx, by rw [hxid]; exact beq_self_eq_true _⟩
  have h2 : [m].countP (fun x => x.id == m.id) = 1 := by simp
  omega

/-- Witness for C5 amended: appending `dupUserMessage` over a store that
already holds id `m1` produces two entries with that id. -/
theorem c5_amended_append_unconditional_witness :
    dupUserMessage.id ∈ completedState.messages.map (fun x => x.id)
    ∧ (addMessage dupUserMessage completedState).messages
        = completedState.messages ++ [dupUserMessage]
    ∧ 2 ≤ (addMessage dupUserMessage completedState).messages.countP
        (fun x => x.id == dupUserMessage.id) :=
  ⟨by decide,
   (c5_amended_append_unconditional dupUserMessage completedState (by decide)).1,
   (c5_amended_append_unconditional dupUserMessage completedState (by decide)).2⟩

/-- C6 counterexample: on a model string with two slashes the destructured
`split("/")` yields the second segment only — `modelID` is `b`, not the
entire remainder `b/c` required by the claim. -/
theorem c6_counterexample_second_segment_only :
    parseModel "openrouter" "a/b/c" = ("a", "b")
    ∧ (("a" : String), ("b" : String)) ≠ (("a" : String), ("b/c" : String)) := by
  exact ⟨rfl, by decide⟩

theorem jsSplitChar_ne_nil (sep : Char) (l : List Char) : jsSplitChar sep l ≠ [] := by
  cases l with
  | nil => simp [jsSplitChar]
  | cons c cs =>
      simp only [jsSplitChar]
      cases jsSplitChar sep cs with
      | nil => simp
      | cons h t => by_cases hc : (c == sep) = true <;> simp [hc]

theorem jsSplitChar_no_sep (sep : Char) (l : List Char) (h : sep ∉ l) :
    jsSplitChar sep l = [l] := by
  induction l with
  | nil => rfl
  | cons c cs ih =>
      have h1 : ¬(sep = c) := fun he => h (by rw [he]; exact List.mem_cons_self _ _)
      have h2 : sep ∉ cs := fun hm => h (List.mem_cons_of_mem _ hm)
      have hc : ¬((c == sep) = true) := by
        simp only [beq_iff_eq]
        intro he
        exact h1 he.symm
      simp only [jsSplitChar, ih h2]
      rw [if_neg hc]

theorem jsSplitChar_append (sep : Char) (a rest : List Char) (h : sep ∉ a) :
    jsSplitChar sep (a ++ sep :: rest) = a :: jsSplitChar sep rest := by
  induction a with
  | nil =>
      simp only [List.nil_append, jsSplitChar]
      cases hq : jsSplitChar sep rest with
      | nil => exact absurd hq (jsSplitChar_ne_nil sep rest)
      | cons hh tt => simp
  | cons c cs ih =>
      have h1 : ¬(sep = c) := fun he => h (by rw [he]; exact List.mem_cons_self _ _)
      have h2 : sep ∉ cs := fun hm => h (List.mem_cons_of_mem _ hm)
      have hc : ¬((c == sep) = true) := by
        simp only [beq_iff_eq]
        intro he
        exact h1 he.symm
      simp only [List.cons_append, jsSplitChar, List.append_eq, ih h2]
      rw [if_neg hc]

theorem toList_append (x y : String) : (x ++ y).toList = x.toList ++ y.toList := by
  simp [String.toList]

theorem slash_toList : ("/" : String).toList = ['/'] := rfl

/-- C6 amended: with no slash the pair is the tracked default provider and
the whole string; a single-slash string `a/b` splits into `(a, b)`; but
with two or more slashes the modelID is only the second slash-separated
segment, not the entire remainder after the first slash. -/
theorem c6_amended_split_first_two_segments (dp a b c m : String)
    (hm : ('/' : Char) ∉ m.toList) (ha : ('/' : Char) ∉ a.toList)
    (hb : ('/' : Char) ∉ b.toList) (hc : ('/' : Char) ∉ c.toList) :
    parseModel dp m = (dp, m)
    ∧ parseModel dp (a ++ "/" ++ b) = (a, b)
    ∧ parseModel dp (a ++ "/" ++ b ++ "/" ++ c) = (a, b) := by
  have hone : (a ++ "/" ++ b).toList = a.toList ++ '/' :: b.toList := by
    rw [toList_append, toList_append, slash_toList, List.append_assoc]
    rfl
  have htwo : (a ++ "/" ++ b ++ "/" ++ c).toList
      = a.toList ++ '/' :: (b.toList ++ '/' :: c.toList) := by
    rw [toList_append, toList_append, toList_append, toList_append, slash_toList]
    simp [List.append_assoc]
  refine ⟨?_, ?_, ?_⟩
  · unfold parseModel jsIncludes
    rw [if_neg (by rw [show m.toList.contains '/' = false by simpa [String.toList] using hm]; simp)]
  · unfold parseModel jsIncludes jsSplit
    rw [hone]
    rw [if_pos (by rw [show (a.toList ++ '/' :: b.toList).contains '/' = true by simp])]
    rw [jsSplitChar_append _ _ _ ha, jsSplitChar_no_sep _ _ hb]
    rfl
  · unfold parseModel jsIncludes jsSplit
    rw [htwo]
    rw [if_pos (by
      rw [show (a.toList ++ '/' :: (b.toList ++ '/' :: c.toList)).contains '/' = true by simp])]
    rw [jsSplitChar_append _ _ _ ha, jsSplitChar_append _ _ _ hb, jsSplitChar_no_sep _ _ hc]
    rfl

/-- Witness for C6 amended at concrete provider/model strings. -/
theorem c6_amended_split_first_two_segments_witness :
    parseModel "openrouter" "m" = ("openrouter", "m")
    ∧ parseModel "openrouter" ("a" ++ "/" ++ "b") = ("a", "b")
    ∧ parseModel "openrouter" ("a" ++ "/" ++ "b" ++ "/" ++ "c") = ("a", "b") :=
  c6_amended_split_first_two_segments "openrouter" "a" "b" "c" "m"
    (by decide) (by decide) (by decide) (by decide)

/-- C7: `regenerateLastMessage` truncates the store to end at the most
recent user message inclusive — every message after it, including any
partial assistant message, is discarded — sets loading, and re-dispatches
that user message's text; on a store holding no user message it fails with
the explicit error (producing no new store state). -/
theorem c7_regenerate_truncates_to_last_user (s : EngineState) :
    ((∀ m ∈ s.messages, m.role ≠ "user") →
        regenerateLastMessage s = Except.error "No user message to regenerate from")
    ∧ (∀ k, k < s.messages.length →
        (s.messages.getD k dummyMessage).role = "user" →
        (∀ j, k < j → j < s.messages.length → (s.messages.getD j dummyMessage).role ≠ "user") →
        regenerateLastMessage s
          = Except.ok (setLoading true (setMessages (s.messages.take (k + 1)) s),
              (s.messages.getD k dummyMessage).content)) := by
  constructor
  · intro hnone
    unfold regenerateLastMessage
    rw [show s.messages.reverse.findIdx? (fun m => m.role == "user") = none from
      List.findIdx?_eq_none_iff.mpr (fun x hx =>
        beq_eq_false_iff_ne.mpr (hnone x (List.mem_reverse.mp hx)))]
  · intro k hk hkrole hafter
    have hlen : s.messages.reverse.length = s.messages.length := List.length_reverse _
    have hfound : s.messages.reverse.findIdx? (fun m => m.role == "user")
        = some (s.messages.length - 1 - k) := by
      rw [List.findIdx?_eq_some_iff_getElem]
      have hb : s.messages.length - 1 - k < s.messages.reverse.length := by
        rw [hlen]
        omega
      refine ⟨hb, ?_, ?_⟩
      · rw [List.getElem_reverse]
        have hik : s.messages.length - 1 - (s.messages.length - 1 - k) = k := by omega
        simp only [hik]
        have hgd : s.messages.getD k dummyMessage = s.messages[k] := by
          rw [getD_of_lt s.messages k hk, List.get_eq_getElem]
        rw [← hgd, hkrole]
        rfl
      · intro j hj
        rw [List.getElem_reverse]
        have hjlen : j < s.messages.length := by omega
        have hgt : k < s.messages.length - 1 - j := by omega
        have hlt2 : s.messages.length - 1 - j < s.messages.length := by omega
        have hgd2 : s.messages.getD (s.messages.length - 1 - j) dummyMessage
            = s.messages[s.messages.length - 1 - j] := by
          rw [getD_of_lt s.messages _ hlt2, List.get_eq_getElem]
        rw [← hgd2]
        simp only [beq_iff_eq]
        exact hafter (s.messages.length - 1 - j) hgt hlt2
    unfold regenerateLastMessage
    rw [hfound]
    have hik : s.messages.length - 1 - (s.messages.length - 1 - k) = k := by omega
    dsimp only
    rw [hik]

/-- Witness for C7: regenerating over `[user hi, assistant hello]`
truncates to the user message and re-dispatches `hi`; over the empty store
it fails with the explicit error. -/
theorem c7_regenerate_truncates_to_last_user_witness :
    regenerateLastMessage initialState = Except.error "No user message to regenerate from"
    ∧ regenerateLastMessage hiHelloState
        = Except.ok (setLoading true (setMessages (hiHelloState.messages.take 1) hiHelloState),
            (hiHelloState.messages.getD 0 dummyMessage).content) :=
  ⟨(c7_regenerate_truncates_to_last_user initialState).1 (by decide),
   (c7_regenerate_truncates_to_last_user hiHelloState).2 0 (by decide) (by decide)
     (by
       intro j h1 h2
       have hj : j = 1 := by
         have : hiHelloState.messages.length = 2 := by decide
         omega
       subst hj
       decide)⟩

/-! ### Session creation and the turn controller -/

theorem createSession_state (hist : List Message) (newId : String) (s : EngineState) :
    createSession hist newId s
      = { s with
          pendingSessionId := some newId, userMessageIds := [],
          currentSessionId := some newId } := by
  unfold createSession setCurrentSessionEffect loadSessionMessages
  dsimp only
  split_ifs with h1 h2
  · have hcur : s.currentSessionId = some newId := by simpa using h1
    rw [← hcur]
  · rfl
  · exact absurd (beq_self_eq_true (some newId)) h2

/-- C8: when the prompt dispatch inside `sendMessage` fails with a
transport error, the optimistically inserted user message — carrying the
text, with status `complete` — is still present (appended at the end, not
rolled back), the failure message occupies the single user-visible error
slot, and loading is false. -/
theorem c8_dispatch_failure_keeps_optimistic_message (now : Nat) (newSessionId : String)
    (emsg text : String) (s : EngineState) :
    (sendMessage now newSessionId (Except.error emsg) text s).messages
        = s.messages ++ [mkUserMessage now text]
    ∧ (mkUserMessage now text).content = text
    ∧ (mkUserMessage now text).status = some "complete"
    ∧ (sendMessage now newSessionId (Except.error emsg) text s).error = some emsg
    ∧ (sendMessage now newSessionId (Except.error emsg) text s).isLoading = false := by
  unfold sendMessage
  cases hc : s.currentSessionId with
  | some sid =>
      dsimp only
      exact ⟨rfl, rfl, rfl, rfl, rfl⟩
  | none =>
      dsimp only
      rw [createSession_state]
      exact ⟨rfl, rfl, rfl, rfl, rfl⟩

/-- C9 counterexample: a part event whose owning messageID is the empty
string — a member of `knownUserMessageIds` — bypasses the suppression
guard (the JS truthiness check `if (messageId && ...)`), and with an
assistant message active the store is mutated, contradicting the claim
that such events never mutate it. -/
theorem c9_counterexample_empty_id_bypasses_guard :
    ("" ∈ emptyIdState.userMessageIds)
    ∧ (handleEvent trivialJson 0 emptyIdPartEvent emptyIdState).messages
        ≠ emptyIdState.messages :=
  ⟨by decide, by decide⟩

/-- C9 amended: for every part event whose owning messageID is a nonempty
member of `knownUserMessageIds`, handling the event leaves the entire
engine state unchanged — no message created, no part added or replaced, no
status or content modified. -/
theorem c9_amended_nonempty_user_part_ignored (env : JsonEnv) (now : Nat) (p : PartEv)
    (s : EngineState) (mid : String) (hmid : p.messageID = some mid) (hne : mid ≠ "")
    (hmem : s.userMessageIds.contains mid = true) :
    handleEvent env now (Event.messagePartUpdated (some p)) s = s := by
  show handlePartUpdated env now (some p) s = s
  apply handlePartUpdated_guard
  rw [hmid]
  show (strTruthy (some mid) && s.userMessageIds.contains mid) = true
  have hst : strTruthy (some mid) = true := by
    simp [strTruthy, beq_eq_false_iff_ne.mpr hne]
  rw [hst, Bool.true_and]
  exact hmem

/-- Witness for C9 amended: a part of the tracked user message `u9` leaves
the state untouched. -/
theorem c9_amended_nonempty_user_part_ignored_witness :
    (u9Part.messageID = some "u9" ∧ ("u9" : String) ≠ ""
      ∧ userTrackedState.userMessageIds.contains "u9" = true)
    ∧ handleEvent trivialJson 0 (Event.messagePartUpdated (some u9Part)) userTrackedState
        = userTrackedState :=
  ⟨⟨by decide, by decide, by decide⟩,
   c9_amended_nonempty_user_part_ignored trivialJson 0 u9Part userTrackedState "u9"
     (by decide) (by decide) (by decide)⟩

/-- C10: `createSession` sets `pendingSessionId` to the newly returned
session id and clears `knownUserMessageIds`, but leaves the
active-assistant tracker (`lastMessageIdRef`) unchanged — an assistant
message still streaming from the previous session remains the target for
subsequent part events — and it also leaves the message store untouched. -/
theorem c10_createSession_preserves_active_assistant (hist : List Message) (newId : String)
    (s : EngineState) :
    (createSession hist newId s).pendingSessionId = some newId
    ∧ (createSession hist newId s).userMessageIds = []
    ∧ (createSession hist newId s).lastMessageId = s.lastMessageId
    ∧ (createSession hist newId s).messages = s.messages := by
  rw [createSession_state]
  exact ⟨rfl, rfl, rfl, rfl⟩

end Workmate
